import Mathlib

/-!
Shallow embedding of `scripts/parse_ingest_metrics.py`.

The script scans a log file line by line with the regular expression

  ingest_metrics table=(\S+) mode=(\S+) op=(\S+)
    (?:parse_ms=(\d+)|parse_us=(\d+)) (?:build_ms=(\d+)|build_us=(\d+))
    (?:send_ms=(\d+)|send_us=(\d+)) (?:wait_lsn_ms=(\d+)|wait_lsn_us=(\d+))
    (?:total_ms=(\d+)|total_us=(\d+))

(`re.search`, i.e. leftmost occurrence inside the line), normalizes each of
the five timing categories to milliseconds (`pick_ms`), groups records by
`(table, mode, op)` (dict `setdefault`), and prints per-group means.

Modelling notes, justified against the source:
* Python floats are modelled as exact rationals (`ℚ`).  Every number the
  script handles is an integer, an integer divided by 1000, or a mean of
  such values; `statistics.mean` itself computes with exact `Fraction`
  arithmetic before converting to float, so `ℚ` matches the intended values.
* The regex is embedded as a committed (non-backtracking) parser.  This is
  extensionally the behaviour of the Python engine on this pattern: every
  `\S+` and `\d+` is followed either by a literal ' ' (which the repeated
  class cannot match, so only the maximal run can succeed) or by the end of
  the pattern (where the engine keeps the greedy maximal run), and the two
  branches of each alternation start with literals that differ before their
  digit part, so at any position at most one branch can match.
* `re.search` is embedded as trying the anchored match at position 0, then
  at position 1, and so on — exactly the leftmost-match rule.
* `for line in f` is modelled by passing the file's list of lines; the
  trailing newline kept by Python is irrelevant to the pattern (`\S`/`\d`
  never match it and it can only follow the match).
-/

namespace IngestMetrics

/-- Whitespace as matched by the regex class `\s` (complement of `\S`):
space, tab, newline, vertical tab, form feed, carriage return. -/
def isSpaceChar (c : Char) : Bool :=
  c == ' ' || c == '\t' || c == '\n' || c == '\x0b' || c == '\x0c' || c == '\r'

/-- Decimal digits as matched by `\d`. -/
def isDigitChar (c : Char) : Bool :=
  '0' ≤ c && c ≤ '9'

/-- Numeric value of a digit string, as computed by Python `int()` on the
captured `\d+` group (leading zeros allowed). -/
def digitsToNat (ds : List Char) : Nat :=
  ds.foldl (fun a c => 10 * a + (c.toNat - '0'.toNat)) 0

/-- Match a literal at the start of the input, returning the rest. -/
def dropLit : List Char → List Char → Option (List Char)
  | [], s => some s
  | _ :: _, [] => none
  | c :: lit, x :: s => if x = c then dropLit lit s else none

/-- Match `\S+` followed (in the pattern) by a space: the maximal nonempty
run of non-whitespace characters. -/
def matchToken (s : List Char) : Option (List Char × List Char) :=
  let run := s.takeWhile (fun c => !isSpaceChar c)
  if run.isEmpty then none else some (run, s.dropWhile (fun c => !isSpaceChar c))

/-- Match `\d+`: the maximal nonempty run of digits, returned as its value. -/
def matchDigits (s : List Char) : Option (Nat × List Char) :=
  let run := s.takeWhile isDigitChar
  if run.isEmpty then none else some (digitsToNat run, s.dropWhile isDigitChar)

/-- Match one alternation group `(?:K_ms=(\d+))|(?:K_us=(\d+))`: try the
millisecond branch in full, else the microsecond branch, mirroring the
regex engine's ordered alternation.  Returns the pair of optional captures
(ms capture, us capture) exactly as in the match's group dictionary. -/
def matchTiming (msLit usLit : List Char) (s : List Char) :
    Option ((Option Nat × Option Nat) × List Char) :=
  match (do
    let s1 ← dropLit msLit s
    let (n, s2) ← matchDigits s1
    pure ((some n, (none : Option Nat)), s2) : Option ((Option Nat × Option Nat) × List Char)) with
  | some r => some r
  | none => do
    let s1 ← dropLit usLit s
    let (n, s2) ← matchDigits s1
    pure (((none : Option Nat), some n), s2)

/-- The five timing alternation groups of the pattern, separated by single
spaces, in the fixed order parse, build, send, wait_lsn, total. -/
def matchTimings (s : List Char) :
    Option ((Option Nat × Option Nat) × (Option Nat × Option Nat) ×
      (Option Nat × Option Nat) × (Option Nat × Option Nat) ×
      (Option Nat × Option Nat)) := do
  let (p, s) ← matchTiming "parse_ms=".toList "parse_us=".toList s
  let s ← dropLit [' '] s
  let (b, s) ← matchTiming "build_ms=".toList "build_us=".toList s
  let s ← dropLit [' '] s
  let (sd, s) ← matchTiming "send_ms=".toList "send_us=".toList s
  let s ← dropLit [' '] s
  let (w, s) ← matchTiming "wait_lsn_ms=".toList "wait_lsn_us=".toList s
  let s ← dropLit [' '] s
  let (t, _) ← matchTiming "total_ms=".toList "total_us=".toList s
  pure (p, b, sd, w, t)

/-- The capture groups of one successful match of the pattern: the three
string groups and, per timing category, the optional ms and us captures
(exactly one of the two is present in a successful match). -/
structure Caps where
  table : String
  mode : String
  op : String
  parse_ms : Option Nat
  parse_us : Option Nat
  build_ms : Option Nat
  build_us : Option Nat
  send_ms : Option Nat
  send_us : Option Nat
  wait_ms : Option Nat
  wait_us : Option Nat
  total_ms : Option Nat
  total_us : Option Nat
deriving DecidableEq, Repr

/-- Anchored match of the whole pattern at the start of `s` (the regex with
an implicit anchor at the current search position).  Trailing input after
the final `\d+` group is ignored, as `re.search` ignores it. -/
def matchCapsAt (s : List Char) : Option Caps := do
  let s ← dropLit "ingest_metrics table=".toList s
  let (table, s) ← matchToken s
  let s ← dropLit " mode=".toList s
  let (mode, s) ← matchToken s
  let s ← dropLit " op=".toList s
  let (op, s) ← matchToken s
  let s ← dropLit [' '] s
  let (p, b, sd, w, t) ← matchTimings s
  pure { table := table.asString, mode := mode.asString, op := op.asString,
         parse_ms := p.1, parse_us := p.2, build_ms := b.1, build_us := b.2,
         send_ms := sd.1, send_us := sd.2, wait_ms := w.1, wait_us := w.2,
         total_ms := t.1, total_us := t.2 }

/-- `pattern.search(line)`: try the anchored match at every position from
the left; the first position where it succeeds wins. -/
def searchCaps : List Char → Option Caps
  | [] => matchCapsAt []
  | c :: t =>
    match matchCapsAt (c :: t) with
    | some r => some r
    | none => searchCaps t

/-- One parsed log line, as built in `parse_file` (source lines 29-38):
the three key strings and the five normalized millisecond values. -/
structure MetricRecord where
  table : String
  mode : String
  op : String
  parse : ℚ
  build : ℚ
  send : ℚ
  wait : ℚ
  total : ℚ
deriving DecidableEq, Repr

/-- Source lines 24-27: prefer microseconds if present (a captured group is
a nonempty digit string, hence truthy), converting to milliseconds; else the
millisecond capture as a float; else 0.0. -/
def pick_ms (ms us : Option Nat) : ℚ :=
  match us with
  | some u => (u : ℚ) / 1000
  | none =>
    match ms with
    | some m => (m : ℚ)
    | none => 0

/-- The row dictionary appended for one match (source lines 29-38). -/
def mkRecord (c : Caps) : MetricRecord :=
  { table := c.table, mode := c.mode, op := c.op,
    parse := pick_ms c.parse_ms c.parse_us,
    build := pick_ms c.build_ms c.build_us,
    send := pick_ms c.send_ms c.send_us,
    wait := pick_ms c.wait_ms c.wait_us,
    total := pick_ms c.total_ms c.total_us }

/-- Anchored match producing the record directly. -/
def matchAt (s : List Char) : Option MetricRecord :=
  (matchCapsAt s).map mkRecord

/-- `pattern.search` followed by record construction. -/
def search (s : List Char) : Option MetricRecord :=
  (searchCaps s).map mkRecord

/-- `parse_file` (source lines 15-39): one optional record per line, in file
order; non-matching lines are skipped. -/
def parse_file (lines : List String) : List MetricRecord :=
  lines.filterMap (fun l => search l.toList)

/-- The grouping key: the triple of the table, mode and op strings of a
record (source line 47). -/
abbrev Key := String × String × String

/-- Key of a record. -/
def keyOf (r : MetricRecord) : Key :=
  (r.table, r.mode, r.op)

/-- One step of `by_key.setdefault(key, []).append(r)` on an association
list that preserves dict insertion order: append to the first entry with
this key, or add a new entry at the end. -/
def insertRow (acc : List (Key × List MetricRecord)) (r : MetricRecord) :
    List (Key × List MetricRecord) :=
  match acc with
  | [] => [(keyOf r, [r])]
  | (k, items) :: rest =>
    if k = keyOf r then (k, items ++ [r]) :: rest
    else (k, items) :: insertRow rest r

/-- The `by_key` dictionary (source lines 45-48), as an association list in
insertion order. -/
def by_key (rows : List MetricRecord) : List (Key × List MetricRecord) :=
  rows.foldl insertRow []

/-- Strict lexicographic order on keys: Python's `<` on the string triple,
comparing component strings by code point, case-sensitively. -/
def keyLt (a b : Key) : Prop :=
  a.1 < b.1 ∨ (a.1 = b.1 ∧ (a.2.1 < b.2.1 ∨ (a.2.1 = b.2.1 ∧ a.2.2 < b.2.2)))

/-- Reflexive closure of `keyLt`: the total order used for sorting. -/
def keyLe (a b : Key) : Prop :=
  keyLt a b ∨ a = b

/-- String comparison computed on the underlying character list (the core
`Decidable` instance for `String` `<` does not reduce in the kernel). -/
def decStrLt (a b : String) : Decidable (a < b) :=
  decidable_of_iff (a.toList < b.toList) String.lt_iff_toList_lt.symm

instance instDecKeyLt : DecidableRel keyLt := fun a b => by
  unfold keyLt
  have d1 := decStrLt a.1 b.1
  have d2 := decStrLt a.2.1 b.2.1
  have d3 := decStrLt a.2.2 b.2.2
  exact @instDecidableOr _ _ d1
    (@instDecidableAnd _ _ _ (@instDecidableOr _ _ d2 (@instDecidableAnd _ _ _ d3)))

instance instDecKeyLe : DecidableRel keyLe := fun a b =>
  @instDecidableOr _ _ (instDecKeyLt a b) inferInstance

/-- Order on `by_key.items()` entries: `sorted` compares the key tuples
first, and keys in the dict are distinct, so only the key order matters. -/
def itemLe (a b : Key × List MetricRecord) : Prop :=
  keyLe a.1 b.1

instance instDecItemLe : DecidableRel itemLe := fun a b => instDecKeyLe a.1 b.1

/-- `sorted(by_key.items())` (source line 51), as a stable sort by key. -/
def sortItems (l : List (Key × List MetricRecord)) : List (Key × List MetricRecord) :=
  List.insertionSort itemLe l

/-- `statistics.mean`: the exact sum divided by the length. -/
def meanQ (l : List ℚ) : ℚ :=
  l.sum / (l.length : ℚ)

/-- Round `q * 10` to the nearest integer, ties to even — the rounding of
the format specifier `:.1f`, computed on numerator and denominator so that
it evaluates by kernel reduction. -/
def roundHalfEven10 (q : ℚ) : Int :=
  let n10 : Int := 10 * q.num
  let d : Int := (q.den : Int)
  let f : Int := Int.fdiv n10 d
  let r : Int := n10 - f * d
  if 2 * r < d then f
  else if d < 2 * r then f + 1
  else if f % 2 = 0 then f else f + 1

/-- Python `f"{x:.1f}"`: the value rounded to one decimal digit, printed
with exactly one digit after the point. -/
def fmt1 (q : ℚ) : String :=
  let n := roundHalfEven10 q
  let m := n.natAbs
  let core := toString (m / 10) ++ "." ++ toString (m % 10)
  if n < 0 then "-" ++ core else core

/-- The line printed for one group (source lines 52-58). -/
def rowLine (e : Key × List MetricRecord) : String :=
  e.1.1 ++ "\t" ++ e.1.2.1 ++ "\t" ++ e.1.2.2 ++ "\t" ++
  toString e.2.length ++ "\t" ++
  fmt1 (meanQ (e.2.map MetricRecord.parse)) ++ "\t" ++
  fmt1 (meanQ (e.2.map MetricRecord.build)) ++ "\t" ++
  fmt1 (meanQ (e.2.map MetricRecord.send)) ++ "\t" ++
  fmt1 (meanQ (e.2.map MetricRecord.wait)) ++ "\t" ++
  fmt1 (meanQ (e.2.map MetricRecord.total))

/-- Source line 43. -/
def noDataLine : String := "No ingest_metrics lines found"

/-- Source line 49. -/
def titleLine : String := "Averages by (table, mode, op):"

/-- Source line 50. -/
def headerLine : String :=
  "table\tmode\top\tcount\tparse_ms\tbuild_ms\tsend_ms\twait_lsn_ms\ttotal_ms"

/-- Source line 62. -/
def usageLine : String := "Usage: parse_ingest_metrics.py <log_file>"

/-- `summarize` (source lines 41-58): the list of lines printed to stdout. -/
def summarize (rows : List MetricRecord) : List String :=
  if rows = [] then [noDataLine]
  else titleLine :: headerLine :: (sortItems (by_key rows)).map rowLine

/-- The keys of the report rows, in the order they are printed. -/
def reportKeys (rows : List MetricRecord) : List Key :=
  (sortItems (by_key rows)).map Prod.fst

/-- The `__main__` block (source lines 60-65): given `sys.argv` and the
lines of the file, the printed lines and the process exit code. -/
def mainRun (argv : List String) (fileLines : List String) : List String × Nat :=
  if argv.length < 2 then ([usageLine], 1)
  else (summarize (parse_file fileLines), 0)


/-- Look up the record list of the first entry with the given key, empty if
absent: indexing the `by_key` dict. -/
def findGroup (acc : List (Key × List MetricRecord)) (k : Key) : List MetricRecord :=
  match acc with
  | [] => []
  | (k1, items) :: rest => if k1 = k then items else findGroup rest k

/-- A string the group `\S+` can capture when followed by a space: nonempty,
no whitespace. -/
def isToken (t : List Char) : Prop :=
  t ≠ [] ∧ ∀ c ∈ t, isSpaceChar c = false

/-- The marker-and-keys part of a matching line: the fixed marker, the three
`key=` tokens and the space before the first timing group. -/
def headerChars (t m o : List Char) : List Char :=
  "ingest_metrics table=".toList ++ t ++ " mode=".toList ++ m ++
    " op=".toList ++ o ++ [' ']

/-! Concrete inputs used to instantiate the theorems. -/

/-- The mixed-unit example line of the spec. -/
def mixedLine : String :=
  "ingest_metrics table=orders mode=batch op=insert parse_ms=10 build_us=5000 send_ms=2 wait_lsn_us=1000 total_ms=13"

/-- Captures of the pattern on `mixedLine`. -/
def mixedCaps : Caps :=
  ⟨"orders", "batch", "insert", some 10, none, none, some 5000,
    some 2, none, none, some 1000, some 13, none⟩

/-- The record produced from `mixedLine`. -/
def mixedRec : MetricRecord :=
  ⟨"orders", "batch", "insert", 10, 5, 2, 1, 13⟩

/-- A record with key `(orders, batch, insert)` and the mixed-unit values,
used to evaluate the report shape. -/
def c3Rec : MetricRecord :=
  ⟨"orders", "batch", "insert", 10, 5, 2, 1, 13⟩

/-- A record with key `(a, x, y)`. -/
def recAxy : MetricRecord := ⟨"a", "x", "y", 1, 1, 1, 1, 1⟩

/-- A record with key `(b, x, y)`. -/
def recBxy : MetricRecord := ⟨"b", "x", "y", 1, 1, 1, 1, 1⟩

/-- A record with key `(t, x, y)` and total 10. -/
def recT10 : MetricRecord := ⟨"t", "x", "y", 1, 2, 3, 4, 10⟩

/-- A record with key `(t, x, y)` and total 20. -/
def recT20 : MetricRecord := ⟨"t", "x", "y", 1, 2, 3, 4, 20⟩

/-- A line holding two complete metric substrings. -/
def twoOccLine : String :=
  "ingest_metrics table=a mode=m op=i parse_ms=1 build_ms=2 send_ms=3 wait_lsn_ms=4 total_ms=5 ingest_metrics table=b mode=m op=i parse_us=9000 build_ms=9 send_ms=9 wait_lsn_ms=9 total_ms=9"

/-- Captures of the first occurrence inside `twoOccLine`. -/
def firstOccCaps : Caps :=
  ⟨"a", "m", "i", some 1, none, some 2, none, some 3, none,
    some 4, none, some 5, none⟩

/-- A line with the marker and key structure but no total field. -/
def missingTotalLine : String :=
  "ingest_metrics table=t mode=m op=i parse_ms=1 build_ms=2 send_ms=3 wait_lsn_ms=4"

/-- A small file with no matching line. -/
def noMatchLines : List String :=
  ["", "2024-01-01 INFO unrelated output", "ingest_metrics table=t mode=m op=i parse_ms=1"]

end IngestMetrics

namespace IngestMetrics

/-! ## Order lemmas: `keyLt`/`keyLe` are the lexicographic linear order -/

/-- The key triple viewed in the lexicographic order on products. -/
def toLexKey (k : Key) : Lex (String × Lex (String × String)) :=
  toLex (k.1, toLex (k.2.1, k.2.2))

theorem keyLt_iff_toLex (a b : Key) : keyLt a b ↔ toLexKey a < toLexKey b := by
  simp [keyLt, toLexKey, Prod.Lex.lt_iff]

theorem toLexKey_inj {a b : Key} : toLexKey a = toLexKey b ↔ a = b := by
  simp [toLexKey, Prod.ext_iff]

theorem keyLe_iff_toLex (a b : Key) : keyLe a b ↔ toLexKey a ≤ toLexKey b := by
  unfold keyLe
  rw [le_iff_lt_or_eq, keyLt_iff_toLex, toLexKey_inj]

theorem keyLt_of_keyLe_of_ne {a b : Key} (h : keyLe a b) (hne : a ≠ b) : keyLt a b :=
  (keyLt_iff_toLex a b).mpr
    (lt_of_le_of_ne ((keyLe_iff_toLex a b).mp h) fun e => hne (toLexKey_inj.mp e))

instance instIsTotalItemLe : IsTotal (Key × List MetricRecord) itemLe :=
  ⟨fun a b => by
    unfold itemLe
    rcases le_total (toLexKey a.1) (toLexKey b.1) with h | h
    · exact Or.inl ((keyLe_iff_toLex _ _).mpr h)
    · exact Or.inr ((keyLe_iff_toLex _ _).mpr h)⟩

instance instIsTransItemLe : IsTrans (Key × List MetricRecord) itemLe :=
  ⟨fun a b c hab hbc => by
    unfold itemLe at *
    exact (keyLe_iff_toLex _ _).mpr
      (le_trans ((keyLe_iff_toLex _ _).mp hab) ((keyLe_iff_toLex _ _).mp hbc))⟩

theorem sortItems_perm (l : List (Key × List MetricRecord)) : List.Perm (sortItems l) l :=
  List.perm_insertionSort itemLe l

theorem sortItems_sorted (l : List (Key × List MetricRecord)) :
    List.Sorted itemLe (sortItems l) :=
  List.sorted_insertionSort itemLe l

end IngestMetrics

namespace IngestMetrics

/-! ## Grouping lemmas: keys and contents of the `by_key` dict -/

theorem insertRow_keys_mem (acc : List (Key × List MetricRecord)) (r : MetricRecord)
    (k1 : Key) :
    k1 ∈ (insertRow acc r).map Prod.fst ↔ k1 ∈ acc.map Prod.fst ∨ k1 = keyOf r := by
  induction acc with
  | nil => simp [insertRow]
  | cons e rest ih =>
    obtain ⟨k, items⟩ := e
    by_cases h : k = keyOf r
    · subst h
      simp [insertRow]
      tauto
    · simp only [insertRow, if_neg h, List.map_cons, List.mem_cons, ih]
      tauto

theorem insertRow_keys_nodup (acc : List (Key × List MetricRecord)) (r : MetricRecord)
    (h : (acc.map Prod.fst).Nodup) : ((insertRow acc r).map Prod.fst).Nodup := by
  induction acc with
  | nil => simp [insertRow]
  | cons e rest ih =>
    obtain ⟨k, items⟩ := e
    rw [List.map_cons, List.nodup_cons] at h
    by_cases hk : k = keyOf r
    · subst hk
      simpa [insertRow] using h
    · rw [insertRow, if_neg hk, List.map_cons, List.nodup_cons]
      refine ⟨fun hmem => ?_, ih h.2⟩
      rcases (insertRow_keys_mem rest r k).mp hmem with h1 | h1
      · exact h.1 h1
      · exact hk h1

theorem by_key_aux_keys_mem (rows : List MetricRecord) (acc : List (Key × List MetricRecord))
    (k1 : Key) :
    k1 ∈ ((rows.foldl insertRow acc).map Prod.fst) ↔
      k1 ∈ acc.map Prod.fst ∨ k1 ∈ rows.map keyOf := by
  induction rows generalizing acc with
  | nil => simp
  | cons r rows ih =>
    rw [List.foldl_cons, ih, insertRow_keys_mem, List.map_cons, List.mem_cons]
    tauto

theorem by_key_aux_keys_nodup (rows : List MetricRecord) (acc : List (Key × List MetricRecord))
    (h : (acc.map Prod.fst).Nodup) : ((rows.foldl insertRow acc).map Prod.fst).Nodup := by
  induction rows generalizing acc with
  | nil => simpa using h
  | cons r rows ih => exact ih _ (insertRow_keys_nodup _ _ h)

theorem by_key_keys_mem (rows : List MetricRecord) (k1 : Key) :
    k1 ∈ (by_key rows).map Prod.fst ↔ k1 ∈ rows.map keyOf := by
  rw [by_key, by_key_aux_keys_mem]
  simp

theorem by_key_keys_nodup (rows : List MetricRecord) :
    ((by_key rows).map Prod.fst).Nodup := by
  exact by_key_aux_keys_nodup rows [] (by simp)

theorem insertRow_findGroup (acc : List (Key × List MetricRecord)) (r : MetricRecord)
    (k : Key) :
    findGroup (insertRow acc r) k =
      if k = keyOf r then findGroup acc k ++ [r] else findGroup acc k := by
  induction acc with
  | nil =>
    by_cases h : k = keyOf r
    · subst h
      simp [insertRow, findGroup]
    · have h2 : ¬(keyOf r = k) := fun e => h e.symm
      simp [insertRow, findGroup, h, h2]
  | cons e rest ih =>
    obtain ⟨k1, items⟩ := e
    by_cases h1 : k1 = keyOf r
    · subst h1
      by_cases h2 : k = keyOf r
      · simp [insertRow, findGroup, h2]
      · have h3 : ¬(keyOf r = k) := fun e => h2 e.symm
        simp [insertRow, findGroup, h2, h3]
    · by_cases h2 : k1 = k
      · subst h2
        simp [insertRow, findGroup, h1]
      · simp [insertRow, findGroup, h1, h2, ih]

theorem by_key_aux_findGroup (rows : List MetricRecord) (acc : List (Key × List MetricRecord))
    (k : Key) :
    findGroup (rows.foldl insertRow acc) k =
      findGroup acc k ++ rows.filter (fun r => decide (keyOf r = k)) := by
  induction rows generalizing acc with
  | nil => simp
  | cons r rows ih =>
    rw [List.foldl_cons, ih, insertRow_findGroup, List.filter_cons]
    by_cases h : keyOf r = k
    · rw [if_pos h.symm, if_pos (by simp [h]), List.append_assoc, List.singleton_append]
    · rw [if_neg (fun e => h e.symm), if_neg (by simp [h])]

theorem by_key_findGroup (rows : List MetricRecord) (k : Key) :
    findGroup (by_key rows) k = rows.filter (fun r => decide (keyOf r = k)) := by
  rw [by_key, by_key_aux_findGroup]
  simp [findGroup]

theorem findGroup_of_mem (acc : List (Key × List MetricRecord)) (k : Key)
    (items : List MetricRecord) (hn : (acc.map Prod.fst).Nodup)
    (h : (k, items) ∈ acc) : findGroup acc k = items := by
  induction acc with
  | nil => simp at h
  | cons e rest ih =>
    obtain ⟨k1, items1⟩ := e
    rw [List.map_cons, List.nodup_cons] at hn
    rcases List.mem_cons.mp h with he | he
    · rw [← he]
      rw [findGroup, if_pos rfl]
    · by_cases hk : k1 = k
      · subst hk
        exact absurd (by simpa using List.mem_map_of_mem Prod.fst he) hn.1
      · rw [findGroup, if_neg hk]
        exact ih hn.2 he

theorem mem_by_key_eq_filter (rows : List MetricRecord) (k : Key)
    (items : List MetricRecord) (h : (k, items) ∈ by_key rows) :
    items = rows.filter (fun r => decide (keyOf r = k)) := by
  rw [← by_key_findGroup rows k, findGroup_of_mem _ _ _ (by_key_keys_nodup rows) h]

theorem mem_by_key_nonempty (rows : List MetricRecord) (k : Key)
    (items : List MetricRecord) (h : (k, items) ∈ by_key rows) : items ≠ [] := by
  have hk : k ∈ (by_key rows).map Prod.fst := by
    simpa using List.mem_map_of_mem Prod.fst h
  rw [by_key_keys_mem] at hk
  obtain ⟨r, hr, hkr⟩ := List.mem_map.mp hk
  have : r ∈ items := by
    rw [mem_by_key_eq_filter rows k items h]
    simp [List.mem_filter, hr, hkr]
  intro e
  rw [e] at this
  simp at this

/-! ## Leftmost-match lemma for `searchCaps` -/

theorem searchCaps_leftmost (l : List Char) (i : Nat) (c : Caps)
    (hi : matchCapsAt (List.drop i l) = some c)
    (hmin : ∀ j, j < i → matchCapsAt (List.drop j l) = none) :
    searchCaps l = some c := by
  induction l generalizing i with
  | nil =>
    rw [List.drop_nil] at hi
    rw [searchCaps]
    exact hi
  | cons x t ih =>
    cases i with
    | zero =>
      rw [List.drop_zero] at hi
      rw [searchCaps, hi]
    | succ i1 =>
      have h0 : matchCapsAt (x :: t) = none := by
        simpa using hmin 0 (Nat.succ_pos _)
      have hi1 : matchCapsAt (List.drop i1 t) = some c := by
        simpa using hi
      have hmin1 : ∀ j, j < i1 → matchCapsAt (List.drop j t) = none := fun j hj => by
        simpa using hmin (j + 1) (Nat.succ_lt_succ hj)
      rw [searchCaps, h0]
      exact ih i1 hi1 hmin1

end IngestMetrics

namespace IngestMetrics

/-! ## Parsing lemmas: literals, tokens, and the header of the pattern -/

theorem dropLit_append (lit s : List Char) : dropLit lit (lit ++ s) = some s := by
  induction lit with
  | nil => simp [dropLit]
  | cons c l ih => simp [dropLit, ih]

theorem takeWhile_append_cons {p : Char → Bool} (t : List Char) (c0 : Char) (r1 : List Char)
    (h2 : ∀ c ∈ t, p c = true) (hc : p c0 = false) :
    (t ++ c0 :: r1).takeWhile p = t := by
  induction t with
  | nil => simp [hc]
  | cons c ts ih =>
    rw [List.cons_append, List.takeWhile_cons_of_pos (h2 c (by simp)),
      ih (fun c hcm => h2 c (by simp [hcm]))]

theorem dropWhile_append_cons {p : Char → Bool} (t : List Char) (c0 : Char) (r1 : List Char)
    (h2 : ∀ c ∈ t, p c = true) (hc : p c0 = false) :
    (t ++ c0 :: r1).dropWhile p = c0 :: r1 := by
  induction t with
  | nil => simp [List.dropWhile_cons, hc]
  | cons c ts ih =>
    rw [List.cons_append, List.dropWhile_cons_of_pos (h2 c (by simp)),
      ih (fun c hcm => h2 c (by simp [hcm]))]

theorem matchToken_sep (t : List Char) (c0 : Char) (r1 : List Char)
    (h1 : t ≠ []) (h2 : ∀ c ∈ t, isSpaceChar c = false) (hc : isSpaceChar c0 = true) :
    matchToken (t ++ c0 :: r1) = some (t, c0 :: r1) := by
  unfold matchToken
  rw [takeWhile_append_cons t c0 r1 (fun c hcm => by simp [h2 c hcm]) (by simp [hc]),
    dropWhile_append_cons t c0 r1 (fun c hcm => by simp [h2 c hcm]) (by simp [hc])]
  simp [List.isEmpty_iff, h1]

end IngestMetrics

namespace IngestMetrics

theorem matchCapsAt_header (t m o rest : List Char)
    (ht : isToken t) (hm : isToken m) (ho : isToken o) :
    matchCapsAt (headerChars t m o ++ rest) =
      (matchTimings rest).map (fun q =>
        { table := t.asString, mode := m.asString, op := o.asString,
          parse_ms := q.1.1, parse_us := q.1.2,
          build_ms := q.2.1.1, build_us := q.2.1.2,
          send_ms := q.2.2.1.1, send_us := q.2.2.1.2,
          wait_ms := q.2.2.2.1.1, wait_us := q.2.2.2.1.2,
          total_ms := q.2.2.2.2.1, total_us := q.2.2.2.2.2 }) := by
  obtain ⟨ht1, ht2⟩ := ht
  obtain ⟨hm1, hm2⟩ := hm
  obtain ⟨ho1, ho2⟩ := ho
  have em : (" mode=".toList : List Char) = ' ' :: "mode=".toList := rfl
  have eo : (" op=".toList : List Char) = ' ' :: "op=".toList := rfl
  have e1 : headerChars t m o ++ rest =
      "ingest_metrics table=".toList ++
        (t ++ ' ' :: ("mode=".toList ++
          (m ++ ' ' :: ("op=".toList ++ (o ++ ' ' :: rest))))) := by
    simp [headerChars, em, eo]
  rw [e1, matchCapsAt]
  simp only [Option.bind_eq_bind]
  rw [dropLit_append]
  simp only [Option.some_bind]
  rw [matchToken_sep t ' ' _ ht1 ht2 (by decide)]
  simp only [Option.some_bind]
  rw [show (' ' :: ("mode=".toList ++ (m ++ ' ' :: ("op=".toList ++ (o ++ ' ' :: rest))))) =
      " mode=".toList ++ (m ++ ' ' :: ("op=".toList ++ (o ++ ' ' :: rest))) from by
    simp [em], dropLit_append]
  simp only [Option.some_bind]
  rw [matchToken_sep m ' ' _ hm1 hm2 (by decide)]
  simp only [Option.some_bind]
  rw [show (' ' :: ("op=".toList ++ (o ++ ' ' :: rest))) =
      " op=".toList ++ (o ++ ' ' :: rest) from by simp [eo], dropLit_append]
  simp only [Option.some_bind]
  rw [matchToken_sep o ' ' _ ho1 ho2 (by decide)]
  simp only [Option.some_bind]
  rw [show (' ' :: rest) = [' '] ++ rest from rfl, dropLit_append]
  simp only [Option.some_bind]
  cases matchTimings rest with
  | none => rfl
  | some q => rfl

end IngestMetrics

namespace IngestMetrics

/-! ## Claim theorems -/

/-- C1: for every matching log line and each of the five timing categories
independently, the normalized millisecond value of the produced MetricRecord
is the captured microsecond integer divided by 1000 if a microsecond variant
was captured, else the captured millisecond integer if a millisecond variant
was captured, else 0; and the mixed-unit line
`parse_ms=10 build_us=5000 send_ms=2 wait_lsn_us=1000 total_ms=13` yields
parse=10, build=5, send=2, wait=1, total=13. -/
theorem C1_unit_normalization :
    (∀ (ms : Option Nat) (u : Nat), pick_ms ms (some u) = (u : ℚ) / 1000) ∧
    (∀ m1 : Nat, pick_ms (some m1) none = (m1 : ℚ)) ∧
    pick_ms none none = 0 ∧
    search mixedLine.toList = some mixedRec := by
  refine ⟨fun ms u => rfl, fun m1 => rfl, rfl, ?_⟩
  have hc : searchCaps mixedLine.toList = some mixedCaps := by decide
  have hr : mkRecord mixedCaps = mixedRec := by
    simp only [mkRecord, mixedCaps, mixedRec, pick_ms, MetricRecord.mk.injEq]
    norm_num
  rw [search, hc, Option.map_some', hr]

/-- C6: for every input whose lines all fail the matcher (including the
empty file), the program emits exactly the single no-data line and exits
with code 0. -/
theorem C6_no_match_lines (argv lines : List String) (hargv : 2 ≤ argv.length)
    (h : ∀ l ∈ lines, search l.toList = none) :
    mainRun argv lines = ([noDataLine], 0) := by
  have hp : parse_file lines = [] := List.filterMap_eq_nil_iff.mpr h
  simp [mainRun, Nat.not_lt.mpr hargv, hp, summarize]

/-- Witness for C6 at a concrete three-line file with no matching line. -/
theorem C6_no_match_lines_witness :
    2 ≤ (["parse_ingest_metrics.py", "empty.log"] : List String).length ∧
    (∀ l ∈ noMatchLines, search l.toList = none) ∧
    mainRun ["parse_ingest_metrics.py", "empty.log"] noMatchLines = ([noDataLine], 0) :=
  ⟨by decide, by decide,
    C6_no_match_lines ["parse_ingest_metrics.py", "empty.log"] noMatchLines
      (by decide) (by decide)⟩

/-- C7: with fewer than two argv entries (missing file argument) the program
prints the usage line to stdout and exits 1; with the argument present the
exit code is 0. -/
theorem C7_usage_exit (argv lines : List String) :
    (argv.length < 2 → mainRun argv lines = ([usageLine], 1)) ∧
    (2 ≤ argv.length → (mainRun argv lines).2 = 0) := by
  constructor
  · intro h
    simp [mainRun, h]
  · intro h
    simp [mainRun, Nat.not_lt.mpr h]

/-- Witness for C7 with a one-element and a two-element argv. -/
theorem C7_usage_exit_witness :
    ((["parse_ingest_metrics.py"] : List String).length < 2 ∧
      mainRun ["parse_ingest_metrics.py"] [] = ([usageLine], 1)) ∧
    (2 ≤ (["parse_ingest_metrics.py", "m.log"] : List String).length ∧
      (mainRun ["parse_ingest_metrics.py", "m.log"] []).2 = 0) :=
  ⟨⟨by decide, (C7_usage_exit ["parse_ingest_metrics.py"] []).1 (by decide)⟩,
    ⟨by decide, (C7_usage_exit ["parse_ingest_metrics.py", "m.log"] []).2 (by decide)⟩⟩

/-- C8: a line made of the marker and the three key tokens whose timing part
fails the five-category match (in fixed order, integer values) produces no
record when matched there, and a line on which the search fails contributes
nothing to `parse_file` — there are no partial records. -/
theorem C8_no_partial_record (t m o rest : List Char)
    (ht : isToken t) (hm : isToken m) (ho : isToken o)
    (hrest : matchTimings rest = none) :
    matchCapsAt (headerChars t m o ++ rest) = none ∧
    ∀ (line : String) (ls : List String),
      search line.toList = none → parse_file (line :: ls) = parse_file ls := by
  constructor
  · rw [matchCapsAt_header t m o rest ht hm ho, hrest]
    rfl
  · intro line ls h
    have h' : search line.data = none := h
    simp [parse_file, h, h']

/-- Witness for C8 at a line missing the total field. -/
theorem C8_no_partial_record_witness :
    isToken "t".toList ∧ isToken "m".toList ∧ isToken "i".toList ∧
    matchTimings "parse_ms=1 build_ms=2 send_ms=3 wait_lsn_ms=4".toList = none ∧
    matchCapsAt (headerChars "t".toList "m".toList "i".toList ++
      "parse_ms=1 build_ms=2 send_ms=3 wait_lsn_ms=4".toList) = none ∧
    search missingTotalLine.toList = none :=
  ⟨⟨by decide, by decide⟩, ⟨by decide, by decide⟩, ⟨by decide, by decide⟩,
    Option.isNone_iff_eq_none.mp (by decide),
    (C8_no_partial_record "t".toList "m".toList "i".toList
      "parse_ms=1 build_ms=2 send_ms=3 wait_lsn_ms=4".toList
      ⟨by decide, by decide⟩ ⟨by decide, by decide⟩ ⟨by decide, by decide⟩
      (Option.isNone_iff_eq_none.mp (by decide))).1,
    by decide⟩

/-- C9: the mapping from file contents to printed report and exit code is a
deterministic function — equal inputs yield equal outputs. -/
theorem C9_deterministic (argv lines1 lines2 : List String) (h : lines1 = lines2) :
    mainRun argv lines1 = mainRun argv lines2 := by
  rw [h]

/-- Witness for C9 at a concrete invocation. -/
theorem C9_deterministic_witness :
    (["a line"] : List String) = ["a line"] ∧
    mainRun ["parse_ingest_metrics.py", "x.log"] ["a line"] =
      mainRun ["parse_ingest_metrics.py", "x.log"] ["a line"] :=
  ⟨rfl, C9_deterministic ["parse_ingest_metrics.py", "x.log"] ["a line"] ["a line"] rfl⟩

/-- C10: the matcher is applied once per line and only the leftmost
occurrence is used: if the anchored match succeeds at position `i` of a line
and fails at every earlier position, the search result is the record built
from that occurrence; and every line contributes at most one record. -/
theorem C10_leftmost_once (l : List Char) (i : Nat) (c : Caps)
    (hi : matchCapsAt (List.drop i l) = some c)
    (hmin : ∀ j, j < i → matchCapsAt (List.drop j l) = none) :
    search l = some (mkRecord c) ∧
    ∀ lines : List String, (parse_file lines).length ≤ lines.length := by
  constructor
  · rw [search, searchCaps_leftmost l i c hi hmin]
    rfl
  · intro lines
    exact List.length_filterMap_le _ _

/-- Witness for C10 at a line holding two complete metric substrings: the
record comes from the first occurrence (table `a`, not `b`). -/
theorem C10_leftmost_once_witness :
    matchCapsAt (List.drop 0 twoOccLine.toList) = some firstOccCaps ∧
    search twoOccLine.toList = some (mkRecord firstOccCaps) ∧
    (mkRecord firstOccCaps).table = "a" :=
  ⟨by decide,
    (C10_leftmost_once twoOccLine.toList 0 firstOccCaps (by decide)
      (fun j hj => absurd hj (Nat.not_lt_zero j))).1,
    rfl⟩

end IngestMetrics

namespace IngestMetrics

/-- C2: the set of GroupKeys appearing as rows of the final report is
exactly the set of distinct `(table, mode, op)` triples among the matching
lines — no key invented, none dropped, each key exactly one row. -/
theorem C2_report_keys_exact (lines : List String) :
    (reportKeys (parse_file lines)).Nodup ∧
    ∀ k : Key, k ∈ reportKeys (parse_file lines) ↔
      ∃ l ∈ lines, ∃ r : MetricRecord, search l.toList = some r ∧ keyOf r = k := by
  have hperm : List.Perm (reportKeys (parse_file lines))
      ((by_key (parse_file lines)).map Prod.fst) :=
    (sortItems_perm (by_key (parse_file lines))).map Prod.fst
  constructor
  · exact (hperm.nodup_iff).mpr (by_key_keys_nodup (parse_file lines))
  · intro k
    rw [hperm.mem_iff, by_key_keys_mem]
    constructor
    · intro hk
      obtain ⟨r, hr, hkr⟩ := List.mem_map.mp hk
      obtain ⟨l, hl, hlr⟩ := List.mem_filterMap.mp hr
      exact ⟨l, hl, r, hlr, hkr⟩
    · rintro ⟨l, hl, r, hlr, hkr⟩
      exact List.mem_map.mpr ⟨r, List.mem_filterMap.mpr ⟨l, hl, hlr⟩, hkr⟩

/-- C4: the report rows are sorted by GroupKey in strictly ascending
lexicographic order of `(table, mode, op)` under case-sensitive string
comparison; in particular the group `(a, x, y)` is printed before
`(b, x, y)`. -/
theorem C4_sorted_rows (rows : List MetricRecord) :
    List.Pairwise keyLt (reportKeys rows) ∧
    reportKeys [recBxy, recAxy] = [("a", "x", "y"), ("b", "x", "y")] := by
  constructor
  · have hs : List.Pairwise itemLe (sortItems (by_key rows)) :=
      sortItems_sorted (by_key rows)
    have hle : List.Pairwise keyLe (reportKeys rows) :=
      List.pairwise_map.mpr hs
    have hnd : (reportKeys rows).Nodup :=
      (((sortItems_perm (by_key rows)).map Prod.fst).nodup_iff).mpr
        (by_key_keys_nodup rows)
    exact (hle.and hnd).imp fun h => keyLt_of_keyLe_of_ne h.1 h.2
  · decide

/-- C5: every group of the report holds exactly the records of the input
sharing its key; it is nonempty; each of the five reported timing values is
the arithmetic mean (the field sum over the group divided by the group's
record count); and the printed row carries the group's record count and the
five means formatted by `fmt1`. -/
theorem C5_group_means (rows : List MetricRecord) (k : Key) (items : List MetricRecord)
    (h : (k, items) ∈ sortItems (by_key rows)) :
    items = rows.filter (fun r => decide (keyOf r = k)) ∧
    items ≠ [] ∧
    meanQ (items.map MetricRecord.parse) =
      (items.map MetricRecord.parse).sum / (items.length : ℚ) ∧
    meanQ (items.map MetricRecord.build) =
      (items.map MetricRecord.build).sum / (items.length : ℚ) ∧
    meanQ (items.map MetricRecord.send) =
      (items.map MetricRecord.send).sum / (items.length : ℚ) ∧
    meanQ (items.map MetricRecord.wait) =
      (items.map MetricRecord.wait).sum / (items.length : ℚ) ∧
    meanQ (items.map MetricRecord.total) =
      (items.map MetricRecord.total).sum / (items.length : ℚ) ∧
    rowLine (k, items) =
      k.1 ++ "\t" ++ k.2.1 ++ "\t" ++ k.2.2 ++ "\t" ++ toString items.length ++ "\t" ++
      fmt1 (meanQ (items.map MetricRecord.parse)) ++ "\t" ++
      fmt1 (meanQ (items.map MetricRecord.build)) ++ "\t" ++
      fmt1 (meanQ (items.map MetricRecord.send)) ++ "\t" ++
      fmt1 (meanQ (items.map MetricRecord.wait)) ++ "\t" ++
      fmt1 (meanQ (items.map MetricRecord.total)) := by
  have hmem : (k, items) ∈ by_key rows :=
    ((sortItems_perm (by_key rows)).mem_iff).mp h
  refine ⟨mem_by_key_eq_filter rows k items hmem,
    mem_by_key_nonempty rows k items hmem, ?_, ?_, ?_, ?_, ?_, rfl⟩
  all_goals simp [meanQ]

/-- Witness for C5 at two records sharing the key `(t, x, y)` with totals
10 and 20: the group is both of them and the mean total is 15. -/
theorem C5_group_means_witness :
    ((("t", "x", "y"), [recT10, recT20]) ∈ sortItems (by_key [recT10, recT20])) ∧
    [recT10, recT20] =
      [recT10, recT20].filter (fun r => decide (keyOf r = ("t", "x", "y"))) ∧
    meanQ ([recT10, recT20].map MetricRecord.total) = 15 := by
  have hmem : (("t", "x", "y"), [recT10, recT20]) ∈
      sortItems (by_key [recT10, recT20]) := by decide
  refine ⟨hmem,
    (C5_group_means [recT10, recT20] ("t", "x", "y") [recT10, recT20] hmem).1, ?_⟩
  simp [meanQ, recT10, recT20]
  norm_num

/-- C3 counterexample: on a one-record input the printed report does not
consist of the column header followed by the group rows alone — the first
line is the title `Averages by (table, mode, op):`, so there are three
lines for one group, not two. -/
theorem C3_extra_title_line :
    summarize [c3Rec] =
      [titleLine, headerLine,
        "orders\tbatch\tinsert\t1\t10.0\t5.0\t2.0\t1.0\t13.0"] ∧
    (summarize [c3Rec]).length ≠ 2 ∧ titleLine ≠ headerLine := by
  have hsi : sortItems (by_key [c3Rec]) =
      [((("orders", "batch", "insert") : Key), [c3Rec])] := by decide
  have hp : meanQ ([c3Rec].map MetricRecord.parse) = 10 := by
    simp [meanQ, c3Rec]
  have hb : meanQ ([c3Rec].map MetricRecord.build) = 5 := by
    simp [meanQ, c3Rec]
  have hsd : meanQ ([c3Rec].map MetricRecord.send) = 2 := by
    simp [meanQ, c3Rec]
  have hw : meanQ ([c3Rec].map MetricRecord.wait) = 1 := by
    simp [meanQ, c3Rec]
  have htt : meanQ ([c3Rec].map MetricRecord.total) = 13 := by
    simp [meanQ, c3Rec]
  have hrow : rowLine ((("orders", "batch", "insert") : Key), [c3Rec]) =
      "orders\tbatch\tinsert\t1\t10.0\t5.0\t2.0\t1.0\t13.0" := by
    rw [rowLine, hp, hb, hsd, hw, htt]
    decide
  have hsum : summarize [c3Rec] =
      [titleLine, headerLine,
        rowLine ((("orders", "batch", "insert") : Key), [c3Rec])] := by
    rw [summarize, if_neg (by simp), hsi]
    rfl
  rw [hsum, hrow]
  exact ⟨rfl, by decide, by decide⟩

/-- C3 as amended: when at least one record was parsed, the output is the
title line `Averages by (table, mode, op):`, then the tab-separated column
header, then one row per group in sorted key order, and nothing else. -/
theorem C3_output_shape (r : MetricRecord) (rs : List MetricRecord) :
    summarize (r :: rs) =
      titleLine :: headerLine :: (sortItems (by_key (r :: rs))).map rowLine := by
  rw [summarize, if_neg (by simp)]

end IngestMetrics
